import Mathlib

/-!
Verification development for the `dddts` domain-modeling kernel.

The TypeScript sources are embedded shallowly:
- `src/src/entity.ts` : identity-bearing objects (`AbstractEntity` /
  `Entity`), their constructor and `equals`.
- `src/src/domain-event.ts` : `AbstractDomainEvent`, the event record base.
- `src/src/domain-events-broker.ts` : `DomainEventsBroker`, the process-wide
  registry and dispatcher.
- The `value-object.ts` implementation and the `aggregate-root.ts`
  implementation are not present in the repository sources (only their unit
  tests and their callers are); the few operations the broker needs from
  them are modelled from the spec and marked as such below.

JavaScript object references are modelled by `Nat` tags (`ref` fields);
mutation of a shared object is modelled by explicit state passing; a
function that may throw returns `Except`.
-/

/-- A JavaScript value as used for attribute bundles and event payloads:
null, booleans, numbers, strings, arrays and plain objects
(objects are ordered association lists of own properties). -/
inductive JSValue where
  | null
  | bool (b : Bool)
  | num (n : Int)
  | str (s : String)
  | arr (xs : List JSValue)
  | obj (fields : List (String × JSValue))

mutual

/-- Deep structural comparison of two JavaScript values. -/
def beqV : JSValue → JSValue → Bool
  | .null, .null => true
  | .bool a, .bool b => a == b
  | .num a, .num b => a == b
  | .str a, .str b => a == b
  | .arr xs, .arr ys => beqL xs ys
  | .obj xs, .obj ys => beqF xs ys
  | _, _ => false

/-- Deep structural comparison, elementwise on arrays. -/
def beqL : List JSValue → List JSValue → Bool
  | [], [] => true
  | x :: xs, y :: ys => beqV x y && beqL xs ys
  | _, _ => false

/-- Deep structural comparison, fieldwise on objects. -/
def beqF : List (String × JSValue) → List (String × JSValue) → Bool
  | [], [] => true
  | (k1, v1) :: xs, (k2, v2) :: ys => k1 == k2 && beqV v1 v2 && beqF xs ys
  | _, _ => false

end

mutual

/-- `beqV` decides propositional (structural) equality of values. -/
def beqV_iff : ∀ a b, beqV a b = true ↔ a = b
  | .null, .null => by simp [beqV]
  | .null, .bool _ => by simp [beqV]
  | .null, .num _ => by simp [beqV]
  | .null, .str _ => by simp [beqV]
  | .null, .arr _ => by simp [beqV]
  | .null, .obj _ => by simp [beqV]
  | .bool _, .null => by simp [beqV]
  | .bool _, .bool _ => by simp [beqV]
  | .bool _, .num _ => by simp [beqV]
  | .bool _, .str _ => by simp [beqV]
  | .bool _, .arr _ => by simp [beqV]
  | .bool _, .obj _ => by simp [beqV]
  | .num _, .null => by simp [beqV]
  | .num _, .bool _ => by simp [beqV]
  | .num _, .num _ => by simp [beqV]
  | .num _, .str _ => by simp [beqV]
  | .num _, .arr _ => by simp [beqV]
  | .num _, .obj _ => by simp [beqV]
  | .str _, .null => by simp [beqV]
  | .str _, .bool _ => by simp [beqV]
  | .str _, .num _ => by simp [beqV]
  | .str _, .str _ => by simp [beqV]
  | .str _, .arr _ => by simp [beqV]
  | .str _, .obj _ => by simp [beqV]
  | .arr _, .null => by simp [beqV]
  | .arr _, .bool _ => by simp [beqV]
  | .arr _, .num _ => by simp [beqV]
  | .arr _, .str _ => by simp [beqV]
  | .arr xs, .arr ys => by simp [beqV, beqL_iff xs ys]
  | .arr _, .obj _ => by simp [beqV]
  | .obj _, .null => by simp [beqV]
  | .obj _, .bool _ => by simp [beqV]
  | .obj _, .num _ => by simp [beqV]
  | .obj _, .str _ => by simp [beqV]
  | .obj _, .arr _ => by simp [beqV]
  | .obj xs, .obj ys => by simp [beqV, beqF_iff xs ys]

/-- `beqL` decides propositional equality of arrays. -/
def beqL_iff : ∀ xs ys, beqL xs ys = true ↔ xs = ys
  | [], [] => by simp [beqL]
  | [], _ :: _ => by simp [beqL]
  | _ :: _, [] => by simp [beqL]
  | x :: xs, y :: ys => by
      simp [beqL, beqV_iff x y, beqL_iff xs ys]

/-- `beqF` decides propositional equality of field lists. -/
def beqF_iff : ∀ xs ys, beqF xs ys = true ↔ xs = ys
  | [], [] => by simp [beqF]
  | [], _ :: _ => by simp [beqF]
  | _ :: _, [] => by simp [beqF]
  | (k1, v1) :: xs, (k2, v2) :: ys => by
      simp [beqF, beqV_iff v1 v2, beqF_iff xs ys, and_assoc]

end

instance : DecidableEq JSValue := fun a b =>
  decidable_of_iff (beqV a b = true) (beqV_iff a b)

/-- A JavaScript identifier value: the kernel's default ids are strings,
custom `generateId` functions may produce numbers or objects
(`entity.ts`, `EntityConfig.generateId`). Objects carry a reference tag
because the host `===` operator compares objects by reference. -/
inductive JSId where
  | str (s : String)
  | num (n : Int)
  | obj (ref : Nat)
deriving DecidableEq

/-- The host strict-equality operator `===` restricted to id values:
content comparison on primitives, reference comparison on objects,
`false` across different runtime types. -/
def jsStrictEqId : JSId → JSId → Bool
  | .str a, .str b => a == b
  | .num a, .num b => a == b
  | .obj a, .obj b => a == b
  | _, _ => false

/-- An identity-bearing instance (`AbstractEntity` of `entity.ts`): an
object reference, the concrete subclass it was constructed from, and the
private `_id` assigned at construction. `equals` never consults
`ctorKind`; it is recorded to state type-scoping facts. -/
structure EntityObj where
  ref : Nat
  ctorKind : String
  _id : JSId
deriving DecidableEq

/-- The possible runtime arguments of `AbstractEntity.equals`:
`null`, `undefined`, some non-entity value, or an entity instance
(`isEntity` of `entity.ts` is an `instanceof AbstractEntity` check). -/
inductive EntityArg where
  | undef
  | null
  | notEntity (ref : Nat)
  | entity (e : EntityObj)

/-- `AbstractEntity.equals` (`entity.ts` lines 42-48 and 149-155): returns
`false` for `null`, `undefined` and non-entities; otherwise
`Object.is(this, object) || this._id === object.id`. -/
def entityEquals (self : EntityObj) (object : EntityArg) : Bool :=
  match object with
  | .entity o => (self.ref == o.ref) || jsStrictEqId self._id o._id
  | _ => false

/-- Modelled from the spec: `value-object.ts` is absent from the
repository sources (only its unit tests, concatenated into
`domain-event.ts`, are present). Spec section 4.2: an ImmutableValue wraps
an attribute bundle; the `ref` tag models the wrapper's object reference,
which equality must ignore. -/
structure ValueObject where
  ref : Nat
  value : JSValue

/-- Modelled from the spec: `value-object.ts` is absent from the
repository sources. Spec section 4.2, `equals(other)`: `false` if `other`
undefined/null; otherwise deep-structural comparison of `value` against
`other.value`. (`Option.none` stands for both `undefined` and `null`;
object fields are compared in order, the spec does not address key order.) -/
def valueObjectEquals (v : ValueObject) (other : Option ValueObject) : Bool :=
  match other with
  | none => false
  | some o => beqV v.value o.value

/-- A caller-owned mutable data bundle passed to the `AbstractEntity`
constructor: an object reference plus its own properties. -/
structure JSBundle where
  ref : Nat
  fields : List (String × JSValue)

/-- Property read `b.k` on a bundle. -/
def bundleGet (b : JSBundle) (k : String) : Option JSValue :=
  (b.fields.find? (fun p => p.1 == k)).map (fun p => p.2)

/-- The `delete b.k` statement: removes the property in place, the object
reference is unchanged. -/
def bundleDelete (b : JSBundle) (k : String) : JSBundle :=
  ⟨b.ref, b.fields.filter (fun p => p.1 != k)⟩

/-- The fields of a freshly constructed entity that the constructor
assigns: `_id`, and the stored `_data` bundle (reference and contents). -/
structure ConstructedEntity where
  _id : JSValue
  _dataRef : Nat
  _dataFields : List (String × JSValue)

/-- The `AbstractEntity` constructor (`entity.ts` lines 29-36 and
134-143) on a defined data argument:
`this._id = data?.id ?? generateId(); delete data?.id; this._data = data ?? {};`.
`genId` is the value `generateId()` would return; the second component of
the result is the caller's own argument object after the constructor ran. -/
def abstractEntityConstructor (genId : JSValue) (data : JSBundle) :
    ConstructedEntity × JSBundle :=
  let i : JSValue :=
    match bundleGet data "id" with
    | some JSValue.null => genId
    | some v => v
    | none => genId
  let mutated := bundleDelete data "id"
  (⟨i, mutated.ref, mutated.fields⟩, mutated)

/-- A domain event record (`domain-event.ts`): the fields the
`AbstractDomainEvent` constructor assigns — `aggregateId`, `timestamp`
(abstracted to a `Nat` clock reading), `data` (`Option.none` is `null`) —
plus `ctorRef`, the reference to the record's constructor function
(`event.constructor`). No event-kind string is stored on the record. -/
structure EventRecord where
  ctorRef : Nat
  aggregateId : String
  timestamp : Nat
  data : Option JSValue
deriving DecidableEq

/-- `EventConstructorContext` of `domain-event.ts`. -/
structure EventConstructorContext where
  aggregateId : String

/-- The `AbstractDomainEvent` constructor (`domain-event.ts` lines 25-35):
`this.aggregateId = ctx.aggregateId; this.timestamp = new Date().toISOString();
this.data = data ?? null;`. `now` abstracts the clock reading; an omitted
`data` argument and an explicit `null` both become `Option.none`. -/
def mkAbstractDomainEvent (ctorRef : Nat) (ctx : EventConstructorContext)
    (now : Nat) (data : Option JSValue) : EventRecord :=
  { ctorRef := ctorRef, aggregateId := ctx.aggregateId,
    timestamp := now, data := data }

/-- An event handler as the broker sees it: an identifying tag (for
invocation traces) and whether invoking it raises synchronously.
The broker never inspects a handler; it only calls it. -/
structure Handler where
  hid : Nat
  throws : Bool
deriving DecidableEq

/-- The `eventHandlers` map (`Map<string, DomainEventHandler[]>`): an
insertion-ordered association list. -/
abbrev HandlerMap := List (String × List Handler)

/-- An invocation trace: which handler was invoked with which event, in
invocation order. -/
abbrev Trace := List (Nat × EventRecord)

/-- `Map.prototype.get`. -/
def mapGet (m : HandlerMap) (k : String) : Option (List Handler) :=
  (m.find? (fun p => p.1 == k)).map (fun p => p.2)

/-- `Map.prototype.set`: overwrites the value at an existing key in place,
otherwise appends a new entry. -/
def mapSet (m : HandlerMap) (k : String) (v : List Handler) : HandlerMap :=
  if m.any (fun p => p.1 == k) then
    m.map (fun p => if p.1 == k then (k, v) else p)
  else m ++ [(k, v)]

/-- The mutable state the broker operations read and write:
`eventHandlers` and `aggregatesWithEvents` are the two static registries
of `DomainEventsBroker`; aggregates are held by object reference, in
registration order. `buf r` is aggregate object `r`'s `domainEvents`
buffer — modelled from the spec: `aggregate-root.ts` is absent from the
repository sources, spec section 4.4 describes the buffer as an ordered
sequence of event records, appended to by `recordEvent` and emptied by
`clearEvents`. Each aggregate object's immutable `id` is the fixed
environment `aid : Nat → String` passed to the operations, and each event
constructor's current `name` property is the environment
`names : Nat → String` (a constructor's `name` is a mutable property of
the function object, hence an argument of dispatch, not of the record). -/
structure World where
  eventHandlers : HandlerMap
  aggregatesWithEvents : List Nat
  buf : Nat → List EventRecord

/-- The broker's initial state: both registries empty, every buffer empty. -/
def emptyWorld : World :=
  { eventHandlers := [], aggregatesWithEvents := [], buf := fun _ => [] }

/-- `Array.prototype.find`: first element satisfying the predicate. -/
def jsFind (p : Nat → Bool) : List Nat → Option Nat
  | [] => none
  | a :: l => if p a then some a else jsFind p l

/-- `Array.prototype.findIndex` (as an `Option`; the source compares the
result against `-1`). -/
def jsFindIndex (p : Nat → Bool) : List Nat → Option Nat
  | [] => none
  | a :: l => if p a then some 0 else (jsFindIndex p l).map (fun i => i + 1)

/-- `Array.prototype.splice(i, 1)`: removes the element at index `i`. -/
def spliceAt : List Nat → Nat → List Nat
  | [], _ => []
  | _ :: l, 0 => l
  | a :: l, i + 1 => a :: spliceAt l i

/-- `DomainEventsBroker.findRegisteredAggregateById` (lines 12-17):
`aggregatesWithEvents.find((agg) => agg.id === id) ?? null`. -/
def findRegisteredAggregateById (aid : Nat → String) (w : World)
    (id : String) : Option Nat :=
  jsFind (fun agg => aid agg == id) w.aggregatesWithEvents

/-- `AbstractEntity.equals` specialised to aggregate roots as the broker
calls it (`agg.equals(aggregate)`): same instance or same string id. -/
def aggEquals (aid : Nat → String) (a b : Nat) : Bool :=
  a == b || aid a == aid b

/-- `DomainEventsBroker.unregisterAggregate` (lines 19-27): find the index
of the first registered aggregate `equals` the argument; splice it out if
found. -/
def unregisterAggregate (aid : Nat → String) (w : World) (aggregate : Nat) :
    World :=
  match jsFindIndex (fun agg => aggEquals aid agg aggregate)
      w.aggregatesWithEvents with
  | some i =>
      { w with aggregatesWithEvents := spliceAt w.aggregatesWithEvents i }
  | none => w

/-- One event's handler loop (`handlers.get(eventName)?.forEach(handle)`,
lines 33-36): invoke each handler in list order; a synchronous throw
escapes, aborting the rest of the loop. The returned trace lists the
invocations that happened (the throwing invocation included). -/
def runHandlers : List Handler → EventRecord → Except Trace Trace
  | [], _ => .ok []
  | h :: hs, e =>
    if h.throws then .error [(h.hid, e)]
    else
      match runHandlers hs e with
      | .error t => .error ((h.hid, e) :: t)
      | .ok t => .ok ((h.hid, e) :: t)

/-- The body of `DomainEventsBroker.dispatchEvents` (lines 29-38) on a
buffer: for each event in order, compute `event.constructor.name` (the
constructor's name property at dispatch time) and run the handlers
registered under it; a throw escaping one event's loop aborts the
remaining events. -/
def dispatchEventList (hm : HandlerMap) (names : Nat → String) :
    List EventRecord → Except Trace Trace
  | [] => .ok []
  | e :: evs =>
    match runHandlers ((mapGet hm (names e.ctorRef)).getD []) e with
    | .error t => .error t
    | .ok t =>
      match dispatchEventList hm names evs with
      | .error t2 => .error (t ++ t2)
      | .ok t2 => .ok (t ++ t2)

/-- `DomainEventsBroker.dispatchEvents` (lines 29-38): iterates the
aggregate's `domainEvents` buffer. -/
def dispatchEvents (names : Nat → String) (w : World) (aggregate : Nat) :
    Except Trace Trace :=
  dispatchEventList w.eventHandlers names (w.buf aggregate)

/-- `DomainEventsBroker.registerEventHandler` (lines 43-51):
`eventHandlers.set(eventName, (eventHandlers.get(eventName) || []).concat(handler))`. -/
def registerEventHandler (w : World) (eventName : String) (handler : Handler) :
    World :=
  { w with eventHandlers := mapSet w.eventHandlers eventName (((mapGet w.eventHandlers eventName).getD []) ++ [handler]) }

/-- `DomainEventsBroker.registerAggregate` (lines 57-65): push the
aggregate only when no aggregate with the same id is registered. -/
def registerAggregate (aid : Nat → String) (w : World) (aggregate : Nat) :
    World :=
  match findRegisteredAggregateById aid w (aid aggregate) with
  | some _ => w
  | none =>
      { w with aggregatesWithEvents := w.aggregatesWithEvents ++ [aggregate] }

/-- Modelled from the spec: `aggregate-root.ts` is absent from the
repository sources; spec section 4.4, `clearEvents()` empties the
aggregate's buffer (the broker calls it as `found.clearDomainEvents()`). -/
def clearDomainEvents (w : World) (aggregate : Nat) : World :=
  { w with buf := fun r => if r == aggregate then [] else w.buf r }

/-- `DomainEventsBroker.dispatchAggregateEvents` (lines 67-78): look the
registered instance up by the argument's id; if none, return; otherwise
dispatch the registered instance's events, then clear its buffer, then
unregister it. A synchronous handler throw escapes (the `Except.error`
branch) before the clear and unregister steps run; the paired `World` is
the state as the exception escapes. -/
def dispatchAggregateEvents (aid names : Nat → String) (w : World)
    (aggregate : Nat) : Except (World × Trace) (World × Trace) :=
  match findRegisteredAggregateById aid w (aid aggregate) with
  | none => .ok (w, [])
  | some found =>
    match dispatchEvents names w found with
    | .error t => .error (w, t)
    | .ok t => .ok (unregisterAggregate aid (clearDomainEvents w found) found, t)

/-- `DomainEventsBroker.clearEventHandlers` (lines 80-82). -/
def clearEventHandlers (w : World) : World :=
  { w with eventHandlers := [] }

/-- `DomainEventsBroker.clearRegisteredAggregates` (lines 84-86): only the
registry is reset; aggregates' own buffers are untouched. -/
def clearRegisteredAggregates (w : World) : World :=
  { w with aggregatesWithEvents := [] }

/-- The state reached after a dispatch call, whether it returned normally
or let a handler's exception escape. -/
def resultWorld : Except (World × Trace) (World × Trace) → World
  | .ok (w, _) => w
  | .error (w, _) => w

/-- The broker's five public operations, for stating registry invariants
over arbitrary operation sequences. -/
inductive BrokerOp where
  | regHandler (eventName : String) (h : Handler)
  | regAgg (aggregate : Nat)
  | dispatch (aggregate : Nat)
  | clearHandlers
  | clearAggregates

/-- Apply one public broker operation to the state. -/
def applyOp (aid names : Nat → String) (w : World) : BrokerOp → World
  | .regHandler k h => registerEventHandler w k h
  | .regAgg r => registerAggregate aid w r
  | .dispatch r => resultWorld (dispatchAggregateEvents aid names w r)
  | .clearHandlers => clearEventHandlers w
  | .clearAggregates => clearRegisteredAggregates w

/-- The invocation trace spec section 4.5 step 3 describes: for each event
in buffer order, every handler registered for its kind, in registration
order, applied to that event. -/
def fullTrace (hm : HandlerMap) (names : Nat → String) :
    List EventRecord → Trace
  | [] => []
  | e :: evs =>
      ((mapGet hm (names e.ctorRef)).getD []).map (fun h => (h.hid, e)) ++
        fullTrace hm names evs

/-- Removing the first element satisfying a predicate, the effect of
`findIndex` followed by `splice(i, 1)`. -/
def eraseFirstB (p : Nat → Bool) : List Nat → List Nat
  | [] => []
  | a :: l => if p a then l else a :: eraseFirstB p l

theorem findIndex_splice_eq_eraseFirstB (p : Nat → Bool) (l : List Nat) :
    (match jsFindIndex p l with
     | some i => spliceAt l i
     | none => l) = eraseFirstB p l := by
  induction l with
  | nil => rfl
  | cons a l ih =>
    by_cases h : p a
    · simp [jsFindIndex, h, spliceAt, eraseFirstB]
    · have h' : p a = false := by simpa using h
      rw [show jsFindIndex p (a :: l) = (jsFindIndex p l).map (fun i => i + 1) by
        simp [jsFindIndex, h']]
      rw [show eraseFirstB p (a :: l) = a :: eraseFirstB p l by
        simp [eraseFirstB, h']]
      cases hfi : jsFindIndex p l with
      | none =>
        rw [hfi] at ih
        exact congrArg (List.cons a) ih
      | some i =>
        rw [hfi] at ih
        exact congrArg (List.cons a) ih

theorem unregisterAggregate_pending (aid : Nat → String) (w : World)
    (r : Nat) :
    (unregisterAggregate aid w r).aggregatesWithEvents =
      eraseFirstB (fun agg => aggEquals aid agg r) w.aggregatesWithEvents := by
  unfold unregisterAggregate
  rw [← findIndex_splice_eq_eraseFirstB (fun agg => aggEquals aid agg r)
    w.aggregatesWithEvents]
  cases jsFindIndex (fun agg => aggEquals aid agg r) w.aggregatesWithEvents with
  | none => rfl
  | some i => rfl

theorem unregisterAggregate_buf (aid : Nat → String) (w : World) (r : Nat) :
    (unregisterAggregate aid w r).buf = w.buf := by
  unfold unregisterAggregate
  cases jsFindIndex (fun agg => aggEquals aid agg r) w.aggregatesWithEvents with
  | none => rfl
  | some i => rfl

theorem unregisterAggregate_handlers (aid : Nat → String) (w : World)
    (r : Nat) :
    (unregisterAggregate aid w r).eventHandlers = w.eventHandlers := by
  unfold unregisterAggregate
  cases jsFindIndex (fun agg => aggEquals aid agg r) w.aggregatesWithEvents with
  | none => rfl
  | some i => rfl

theorem aggEquals_eq_id_check (aid : Nat → String) (r : Nat) :
    (fun agg => aggEquals aid agg r) = (fun agg => aid agg == aid r) := by
  funext agg
  by_cases h : agg = r
  · subst h; simp [aggEquals]
  · simp [aggEquals, h]

theorem jsFind_eq_none_iff (p : Nat → Bool) (l : List Nat) :
    jsFind p l = none ↔ ∀ x ∈ l, p x = false := by
  induction l with
  | nil => simp [jsFind]
  | cons a l ih =>
    by_cases h : p a
    · simp [jsFind, h]
    · simp only [Bool.not_eq_true] at h
      simp [jsFind, h, ih]

theorem jsFind_eq_some (p : Nat → Bool) (l : List Nat) (x : Nat)
    (h : jsFind p l = some x) : p x = true ∧ x ∈ l := by
  induction l with
  | nil => simp [jsFind] at h
  | cons a l ih =>
    by_cases ha : p a
    · simp [jsFind, ha] at h
      subst h
      exact ⟨ha, List.mem_cons_self a l⟩
    · simp only [Bool.not_eq_true] at ha
      simp [jsFind, ha] at h
      rcases ih h with ⟨h1, h2⟩
      exact ⟨h1, List.mem_cons_of_mem a h2⟩

theorem jsFind_append_single (p : Nat → Bool) (l : List Nat) (r : Nat)
    (hl : jsFind p l = none) (hr : p r = true) :
    jsFind p (l ++ [r]) = some r := by
  induction l with
  | nil => simp [jsFind, hr]
  | cons a l ih =>
    by_cases ha : p a
    · simp [jsFind, ha] at hl
    · simp only [Bool.not_eq_true] at ha
      simp [jsFind, ha] at hl ⊢
      exact ih hl

theorem mem_of_mem_eraseFirstB (p : Nat → Bool) (l : List Nat) (x : Nat)
    (h : x ∈ eraseFirstB p l) : x ∈ l := by
  induction l with
  | nil => simp [eraseFirstB] at h
  | cons a l ih =>
    by_cases ha : p a
    · simp [eraseFirstB, ha] at h
      exact List.mem_cons_of_mem a h
    · simp only [Bool.not_eq_true] at ha
      simp [eraseFirstB, ha] at h
      rcases h with h | h
      · exact h ▸ List.mem_cons_self a l
      · exact List.mem_cons_of_mem a (ih h)

theorem mem_eraseFirstB_of_mem (p : Nat → Bool) (l : List Nat) (x : Nat)
    (hx : p x = false) (h : x ∈ l) : x ∈ eraseFirstB p l := by
  induction l with
  | nil => simp at h
  | cons a l ih =>
    by_cases ha : p a
    · simp [eraseFirstB, ha]
      rcases List.mem_cons.mp h with h | h
      · subst h; rw [hx] at ha; cases ha
      · exact h
    · simp only [Bool.not_eq_true] at ha
      simp only [eraseFirstB, ha, Bool.false_eq_true, if_false,
        List.mem_cons]
      rcases List.mem_cons.mp h with h | h
      · exact Or.inl h
      · exact Or.inr (ih h)

theorem jsFind_eraseFirstB_none (aid : Nat → String) (s : String)
    (l : List Nat) (hnd : (l.map aid).Nodup) :
    jsFind (fun x => aid x == s) (eraseFirstB (fun x => aid x == s) l) =
      none := by
  induction l with
  | nil => rfl
  | cons a l ih =>
    rw [List.map_cons, List.nodup_cons] at hnd
    by_cases ha : (aid a == s) = true
    · simp only [eraseFirstB, ha, if_true]
      rw [jsFind_eq_none_iff]
      intro x hx
      rw [beq_eq_false_iff_ne]
      intro hxs
      rw [beq_iff_eq] at ha
      exact hnd.1 (ha ▸ hxs ▸ List.mem_map_of_mem aid hx)
    · simp only [Bool.not_eq_true] at ha
      simp only [eraseFirstB, ha, Bool.false_eq_true, if_false, jsFind, ha]
      exact ih hnd.2

theorem nodup_map_eraseFirstB (aid : Nat → String) (p : Nat → Bool)
    (l : List Nat) (hnd : (l.map aid).Nodup) :
    ((eraseFirstB p l).map aid).Nodup := by
  induction l with
  | nil => simp [eraseFirstB]
  | cons a l ih =>
    rw [List.map_cons, List.nodup_cons] at hnd
    by_cases ha : p a
    · simpa [eraseFirstB, ha] using hnd.2
    · simp only [Bool.not_eq_true] at ha
      simp only [eraseFirstB, ha, Bool.false_eq_true, if_false,
        List.map_cons, List.nodup_cons]
      refine ⟨fun hmem => ?_, ih hnd.2⟩
      rcases List.mem_map.mp hmem with ⟨x, hx, hax⟩
      exact hnd.1 (hax ▸ List.mem_map_of_mem aid (mem_of_mem_eraseFirstB p l x hx))

theorem nodup_map_append_single (aid : Nat → String) (l : List Nat) (r : Nat)
    (hnd : (l.map aid).Nodup) (h : ∀ x ∈ l, aid x ≠ aid r) :
    (((l ++ [r]).map aid)).Nodup := by
  induction l with
  | nil => simp
  | cons a l ih =>
    rw [List.map_cons, List.nodup_cons] at hnd
    rw [List.cons_append, List.map_cons, List.nodup_cons]
    constructor
    · intro hmem
      rw [List.map_append, List.mem_append] at hmem
      rcases hmem with hmem | hmem
      · exact hnd.1 hmem
      · simp only [List.map_cons, List.map_nil, List.mem_singleton] at hmem
        exact h a (List.mem_cons_self a l) hmem
    · exact ih hnd.2 (fun x hx => h x (List.mem_cons_of_mem a hx))

theorem runHandlers_ok (hs : List Handler) (e : EventRecord)
    (h : ∀ x ∈ hs, x.throws = false) :
    runHandlers hs e = .ok (hs.map (fun x => (x.hid, e))) := by
  induction hs with
  | nil => rfl
  | cons a hs ih =>
    have ha : a.throws = false := h a (List.mem_cons_self a hs)
    simp only [runHandlers, ha, Bool.false_eq_true, if_false]
    rw [ih (fun x hx => h x (List.mem_cons_of_mem a hx))]
    rfl

theorem runHandlers_error_char (hs : List Handler) (e : EventRecord)
    (t : Trace) (h : runHandlers hs e = .error t) :
    ∃ pre hx post, hs = pre ++ hx :: post ∧
      (∀ x ∈ pre, x.throws = false) ∧ hx.throws = true ∧
      t = pre.map (fun x => (x.hid, e)) ++ [(hx.hid, e)] := by
  induction hs generalizing t with
  | nil => simp [runHandlers] at h
  | cons a hs ih =>
    by_cases ha : a.throws
    · refine ⟨[], a, hs, by simp, by simp, ha, ?_⟩
      simp only [runHandlers, ha, if_true] at h
      injection h with h
      simp [← h]
    · simp only [Bool.not_eq_true] at ha
      simp only [runHandlers, ha, Bool.false_eq_true, if_false] at h
      cases hrec : runHandlers hs e with
      | ok t2 => rw [hrec] at h; cases h
      | error t2 =>
        rw [hrec] at h
        injection h with h
        rcases ih t2 hrec with ⟨pre, hx, post, h1, h2, h3, h4⟩
        refine ⟨a :: pre, hx, post, by simp [h1], ?_, h3, ?_⟩
        · intro x hxmem
          rcases List.mem_cons.mp hxmem with hxa | hxm
          · exact hxa ▸ ha
          · exact h2 x hxm
        · rw [← h, h4]; simp

theorem dispatchEventList_ok (hm : HandlerMap) (names : Nat → String)
    (evs : List EventRecord)
    (h : ∀ e ∈ evs, ∀ x ∈ (mapGet hm (names e.ctorRef)).getD [],
      x.throws = false) :
    dispatchEventList hm names evs = .ok (fullTrace hm names evs) := by
  induction evs with
  | nil => rfl
  | cons e evs ih =>
    rw [dispatchEventList,
      runHandlers_ok _ e (h e (List.mem_cons_self e evs)),
      ih (fun e2 he2 => h e2 (List.mem_cons_of_mem e he2))]
    rfl

theorem dispatchEventList_error_char (hm : HandlerMap) (names : Nat → String)
    (evs : List EventRecord) (t : Trace)
    (h : dispatchEventList hm names evs = .error t) :
    ∃ evs1 e evs2 t1 t2, evs = evs1 ++ e :: evs2 ∧
      dispatchEventList hm names evs1 = .ok t1 ∧
      runHandlers ((mapGet hm (names e.ctorRef)).getD []) e = .error t2 ∧
      t = t1 ++ t2 := by
  induction evs generalizing t with
  | nil => simp [dispatchEventList] at h
  | cons e evs ih =>
    cases hrun : runHandlers ((mapGet hm (names e.ctorRef)).getD []) e with
    | error t2 =>
      simp only [dispatchEventList, hrun] at h
      injection h with h
      exact ⟨[], e, evs, [], t2, by simp, rfl, hrun, by simp [← h]⟩
    | ok t1 =>
      simp only [dispatchEventList, hrun] at h
      cases hrest : dispatchEventList hm names evs with
      | ok t3 => rw [hrest] at h; cases h
      | error t3 =>
        rw [hrest] at h
        injection h with h
        rcases ih t3 hrest with ⟨evs1, e2, evs2, ta, tb, h1, h2, h3, h4⟩
        refine ⟨e :: evs1, e2, evs2, t1 ++ ta, tb, by simp [h1], ?_, h3, ?_⟩
        · simp only [dispatchEventList, hrun, h2]
        · rw [← h, h4, List.append_assoc]

theorem dispatchAggregateEvents_ok_char (aid names : Nat → String)
    (w : World) (r : Nat) (w' : World) (t : Trace)
    (hok : dispatchAggregateEvents aid names w r = .ok (w', t)) :
    (findRegisteredAggregateById aid w (aid r) = none ∧ w' = w ∧ t = []) ∨
    (∃ found, findRegisteredAggregateById aid w (aid r) = some found ∧
      dispatchEventList w.eventHandlers names (w.buf found) = .ok t ∧
      w' = unregisterAggregate aid (clearDomainEvents w found) found) := by
  unfold dispatchAggregateEvents at hok
  cases hfind : findRegisteredAggregateById aid w (aid r) with
  | none =>
    simp only [hfind] at hok
    injection hok with hok
    exact Or.inl ⟨rfl, congrArg Prod.fst hok |>.symm,
      congrArg Prod.snd hok |>.symm⟩
  | some found =>
    simp only [hfind] at hok
    cases hdis : dispatchEvents names w found with
    | error t2 =>
      simp only [hdis] at hok
      exact Except.noConfusion hok
    | ok t2 =>
      simp only [hdis] at hok
      injection hok with hok
      refine Or.inr ⟨found, rfl, ?_, congrArg Prod.fst hok |>.symm⟩
      rw [show t = t2 from (congrArg Prod.snd hok).symm]
      exact hdis

theorem dispatchAggregateEvents_error_char (aid names : Nat → String)
    (w : World) (r : Nat) (w2 : World) (t : Trace)
    (herr : dispatchAggregateEvents aid names w r = .error (w2, t)) :
    w2 = w ∧ ∃ found, findRegisteredAggregateById aid w (aid r) = some found ∧
      dispatchEventList w.eventHandlers names (w.buf found) = .error t := by
  unfold dispatchAggregateEvents at herr
  cases hfind : findRegisteredAggregateById aid w (aid r) with
  | none =>
    simp only [hfind] at herr
    exact Except.noConfusion herr
  | some found =>
    simp only [hfind] at herr
    cases hdis : dispatchEvents names w found with
    | ok t2 =>
      simp only [hdis] at herr
      exact Except.noConfusion herr
    | error t2 =>
      simp only [hdis] at herr
      injection herr with herr
      refine ⟨congrArg Prod.fst herr |>.symm, found, rfl, ?_⟩
      rw [show t = t2 from (congrArg Prod.snd herr).symm]
      exact hdis

theorem okWorld_handlers (aid : Nat → String) (w : World) (found : Nat) :
    (unregisterAggregate aid (clearDomainEvents w found) found).eventHandlers =
      w.eventHandlers := by
  rw [unregisterAggregate_handlers]; rfl

theorem okWorld_buf (aid : Nat → String) (w : World) (found : Nat) :
    (unregisterAggregate aid (clearDomainEvents w found) found).buf =
      fun r2 => if r2 == found then [] else w.buf r2 := by
  rw [unregisterAggregate_buf]; rfl

theorem okWorld_pending (aid : Nat → String) (w : World) (found : Nat) :
    (unregisterAggregate aid (clearDomainEvents w found) found).aggregatesWithEvents =
      eraseFirstB (fun agg => aid agg == aid found) w.aggregatesWithEvents := by
  rw [unregisterAggregate_pending, ← aggEquals_eq_id_check]; rfl

theorem dispatch_of_find_none (aid names : Nat → String) (w : World) (r : Nat)
    (h : findRegisteredAggregateById aid w (aid r) = none) :
    dispatchAggregateEvents aid names w r = .ok (w, []) := by
  unfold dispatchAggregateEvents
  simp only [h]

theorem registerAggregate_of_found (aid : Nat → String) (w : World) (r found : Nat)
    (h : findRegisteredAggregateById aid w (aid r) = some found) :
    registerAggregate aid w r = w := by
  unfold registerAggregate
  simp only [h]

theorem mapGet_of_map_replace (m : HandlerMap) (k : String) (v : List Handler)
    (hany : m.any (fun p => p.1 == k) = true) :
    mapGet (m.map (fun p => if p.1 == k then (k, v) else p)) k = some v := by
  induction m with
  | nil => simp at hany
  | cons a m ih =>
    by_cases ha : (a.1 == k) = true
    · simp [mapGet, List.find?, ha]
    · simp only [Bool.not_eq_true] at ha
      simp only [List.any_cons, ha, Bool.false_or] at hany
      simp only [List.map_cons, ha, Bool.false_eq_true, if_false]
      show mapGet (a :: m.map (fun p => if p.1 == k then (k, v) else p)) k = some v
      unfold mapGet
      rw [List.find?_cons_of_neg _ (by simp [ha])]
      exact ih hany

theorem mapGet_append_new (m : HandlerMap) (k : String) (v : List Handler)
    (hany : m.any (fun p => p.1 == k) = false) :
    mapGet (m ++ [(k, v)]) k = some v := by
  induction m with
  | nil => simp [mapGet, List.find?]
  | cons a m ih =>
    simp only [List.any_cons, Bool.or_eq_false_iff] at hany
    rw [List.cons_append]
    unfold mapGet
    rw [List.find?_cons_of_neg _ (by simp [hany.1])]
    exact ih hany.2

theorem mapGet_mapSet_self (m : HandlerMap) (k : String) (v : List Handler) :
    mapGet (mapSet m k v) k = some v := by
  unfold mapSet
  by_cases hany : m.any (fun p => p.1 == k) = true
  · simp only [hany, if_true]
    exact mapGet_of_map_replace m k v hany
  · simp only [Bool.not_eq_true] at hany
    simp only [hany, Bool.false_eq_true, if_false]
    exact mapGet_append_new m k v hany

theorem find?_filter_self_ne (l : List (String × JSValue)) (k : String) :
    (l.filter (fun p => p.1 != k)).find? (fun p => p.1 == k) = none := by
  induction l with
  | nil => rfl
  | cons a l ih =>
    by_cases h : (a.1 == k) = true
    · simp only [List.filter_cons, bne, h, Bool.not_true, Bool.false_eq_true,
        if_false]
      exact ih
    · simp only [Bool.not_eq_true] at h
      simp only [List.filter_cons, bne, h, Bool.not_false, if_true]
      rw [List.find?_cons_of_neg _ (by simp [h])]
      exact ih

/-- C1: for every aggregate registered with the Broker, if
`dispatchAggregateEvents(a)` completes without any handler raising, then
afterwards the registered instance's pending-event buffer is empty, the
aggregate is removed from `pendingAggregates` (so no aggregate with that id
remains registered), and a second immediate `dispatchAggregateEvents(a)`
invokes no handlers; dispatch of an unregistered or already-dispatched
aggregate is a silent no-op, not an error. The registry is assumed to hold
at most one entry per id, the invariant every reachable broker state
satisfies. -/
theorem C1_successful_dispatch (aid names : Nat → String) (w : World)
    (r : Nat) (w' : World) (t : Trace)
    (hnd : (w.aggregatesWithEvents.map aid).Nodup)
    (hok : dispatchAggregateEvents aid names w r = .ok (w', t)) :
    (∀ found, findRegisteredAggregateById aid w (aid r) = some found →
      w'.buf found = [] ∧ found ∉ w'.aggregatesWithEvents) ∧
    findRegisteredAggregateById aid w' (aid r) = none ∧
    dispatchAggregateEvents aid names w' r = .ok (w', []) ∧
    (findRegisteredAggregateById aid w (aid r) = none → w' = w ∧ t = []) := by
  rcases dispatchAggregateEvents_ok_char aid names w r w' t hok with
    ⟨hfind, hw, ht⟩ | ⟨found, hfind, hdis, hw⟩
  · subst hw; subst ht
    refine ⟨?_, hfind, dispatch_of_find_none aid names _ r hfind,
      fun _ => ⟨rfl, rfl⟩⟩
    intro fr hfr
    rw [hfind] at hfr
    cases hfr
  · have hids : aid found = aid r := by
      have := (jsFind_eq_some _ _ _ hfind).1
      simpa using this
    have hpend : w'.aggregatesWithEvents =
        eraseFirstB (fun agg => aid agg == aid r) w.aggregatesWithEvents := by
      rw [hw, okWorld_pending]
      simp only [hids]
    have hfind' : findRegisteredAggregateById aid w' (aid r) = none := by
      show jsFind (fun agg => aid agg == aid r) w'.aggregatesWithEvents = none
      rw [hpend]
      exact jsFind_eraseFirstB_none aid (aid r) _ hnd
    have hnone : ∀ x ∈ w'.aggregatesWithEvents, (aid x == aid r) = false := by
      intro x hx
      exact (jsFind_eq_none_iff _ _).mp hfind' x hx
    refine ⟨?_, hfind', dispatch_of_find_none aid names w' r hfind', ?_⟩
    · intro fr hfr
      rw [hfind] at hfr
      injection hfr with hfr
      subst hfr
      constructor
      · rw [hw, okWorld_buf]; simp
      · intro hmem
        have := hnone found hmem
        rw [hids] at this
        simp at this
    · intro h0
      rw [hfind] at h0
      cases h0

/-- C2: if a handler raises synchronously during
`dispatchAggregateEvents`, the exception escapes uncaught (the call
produces the error outcome), the broker state is left exactly as it was —
in particular the registered instance's buffer is not cleared and the
aggregate remains registered, so a subsequent dispatch still finds it —
and the invocation trace stops at the throwing handler: the buffered
events decompose into fully-handled earlier events, the current event
whose handler list was cut short at the first throwing handler, and
untouched subsequent events that contribute no invocations. -/
theorem C2_throwing_handler (aid names : Nat → String) (w : World) (r : Nat)
    (w2 : World) (t : Trace)
    (herr : dispatchAggregateEvents aid names w r = .error (w2, t)) :
    w2 = w ∧
    ∃ found, findRegisteredAggregateById aid w (aid r) = some found ∧
      found ∈ w.aggregatesWithEvents ∧
      w2.buf found = w.buf found ∧
      w2.aggregatesWithEvents = w.aggregatesWithEvents ∧
      findRegisteredAggregateById aid w2 (aid r) = some found ∧
      ∃ evs1 e evs2 t1 pre hx post,
        w.buf found = evs1 ++ e :: evs2 ∧
        dispatchEventList w.eventHandlers names evs1 = .ok t1 ∧
        (mapGet w.eventHandlers (names e.ctorRef)).getD [] =
          pre ++ hx :: post ∧
        (∀ x ∈ pre, x.throws = false) ∧ hx.throws = true ∧
        t = t1 ++ (pre.map (fun x => (x.hid, e)) ++ [(hx.hid, e)]) := by
  rcases dispatchAggregateEvents_error_char aid names w r w2 t herr with
    ⟨hw, found, hfind, hdis⟩
  subst hw
  have hfind' : jsFind (fun agg => aid agg == aid r)
      w2.aggregatesWithEvents = some found := hfind
  rcases jsFind_eq_some _ _ _ hfind' with ⟨_, hmem⟩
  refine ⟨rfl, found, hfind, hmem, rfl, rfl, hfind, ?_⟩
  rcases dispatchEventList_error_char _ _ _ _ hdis with
    ⟨evs1, e, evs2, t1, t2, h1, h2, h3, h4⟩
  rcases runHandlers_error_char _ _ _ h3 with ⟨pre, hx, post, g1, g2, g3, g4⟩
  exact ⟨evs1, e, evs2, t1, pre, hx, post, h1, h2, g1, g2, g3,
    by rw [h4, g4]⟩

/-- C3: when no involved handler throws, dispatching a buffer invokes, for
each event in buffer (insertion) order, every handler registered for its
dispatch key, in registration order, passing that event (the `fullTrace`
shape); and `registerEventHandler` appends to the end of the key's handler
list with no de-duplication, so a handler registered twice appears twice
and is invoked twice per matching event. -/
theorem C3_ordered_fanout (names : Nat → String) :
    (∀ hm evs,
      (∀ e ∈ evs, ∀ x ∈ (mapGet hm (names e.ctorRef)).getD [],
        x.throws = false) →
      dispatchEventList hm names evs = .ok (fullTrace hm names evs)) ∧
    (∀ w k h, mapGet (registerEventHandler w k h).eventHandlers k =
      some (((mapGet w.eventHandlers k).getD []) ++ [h])) := by
  constructor
  · exact fun hm evs h => dispatchEventList_ok hm names evs h
  · intro w k h
    exact mapGet_mapSet_self w.eventHandlers k
      (((mapGet w.eventHandlers k).getD []) ++ [h])

/-- C4 (amended): the handler-lookup discriminator is the constructor's
`name` property read at dispatch time inside `dispatchEvents`
(`event.constructor.name`); the constructed record stores only the
constructor reference and no event-kind string, so a record is routed to
the handlers registered under whatever the constructor's name is when the
dispatch runs. -/
theorem C4_dispatch_time_kind (hm : HandlerMap) (names : Nat → String)
    (ctorRef : Nat) (ctx : EventConstructorContext) (now : Nat)
    (d : Option JSValue)
    (hno : ∀ x ∈ (mapGet hm (names ctorRef)).getD [], x.throws = false) :
    dispatchEventList hm names [mkAbstractDomainEvent ctorRef ctx now d] =
      .ok (((mapGet hm (names ctorRef)).getD []).map
        (fun x => (x.hid, mkAbstractDomainEvent ctorRef ctx now d))) := by
  rw [show dispatchEventList hm names [mkAbstractDomainEvent ctorRef ctx now d] =
      (match runHandlers ((mapGet hm (names ctorRef)).getD [])
          (mkAbstractDomainEvent ctorRef ctx now d) with
       | .error t => .error t
       | .ok t =>
         match dispatchEventList hm names [] with
         | .error t2 => .error (t ++ t2)
         | .ok t2 => .ok (t ++ t2)) from rfl]
  rw [runHandlers_ok _ _ hno]
  simp [dispatchEventList]

/-- C4 (counterexample to the claim as stated): a record constructed while
its constructor was named `K` is routed to the `K2` handlers once the
constructor's name reads `K2` at dispatch time — renaming the type between
construction and dispatch does change which handlers the
previously-constructed record is routed to. -/
def eC4 : EventRecord := mkAbstractDomainEvent 0 ⟨"agg-1"⟩ 0 none

def hmC4 : HandlerMap := [("K", [⟨5, false⟩]), ("K2", [⟨7, false⟩])]

def namesBefore : Nat → String := fun _ => "K"

def namesAfter : Nat → String := fun _ => "K2"

/-- C4: the same constructed record, dispatched under the
construction-time constructor name, is routed to handler 5; dispatched
after the constructor is renamed, it is routed to handler 7 — refuting
derivation of the discriminator at construction time. -/
theorem C4_counterexample :
    dispatchEventList hmC4 namesBefore [eC4] = .ok [(5, eC4)] ∧
    dispatchEventList hmC4 namesAfter [eC4] = .ok [(7, eC4)] ∧
    namesBefore eC4.ctorRef ≠ namesAfter eC4.ctorRef :=
  ⟨rfl, rfl, by decide⟩

/-- C5: `dispatchAggregateEvents` looks the registered instance up by the
argument's id and dispatches, clears and unregisters the registered
instance — even when the argument is a different object reference with the
same id, whose own buffer is left untouched. -/
theorem C5_registered_instance_dispatched (aid names : Nat → String)
    (w : World) (argRef found : Nat) (w' : World) (t : Trace)
    (hne : found ≠ argRef)
    (hfind : findRegisteredAggregateById aid w (aid argRef) = some found)
    (hok : dispatchAggregateEvents aid names w argRef = .ok (w', t)) :
    dispatchEventList w.eventHandlers names (w.buf found) = .ok t ∧
    w'.buf found = [] ∧
    w'.buf argRef = w.buf argRef ∧
    w'.aggregatesWithEvents =
      eraseFirstB (fun agg => aid agg == aid found) w.aggregatesWithEvents ∧
    w'.eventHandlers = w.eventHandlers := by
  rcases dispatchAggregateEvents_ok_char aid names w argRef w' t hok with
    ⟨hfn, _, _⟩ | ⟨found2, hfind2, hdis, hw⟩
  · rw [hfind] at hfn; cases hfn
  · rw [hfind] at hfind2
    injection hfind2 with hf2
    subst hf2
    subst hw
    refine ⟨hdis, ?_, ?_, okWorld_pending aid w found,
      okWorld_handlers aid w found⟩
    · rw [okWorld_buf]; simp
    · rw [okWorld_buf]
      have : (argRef == found) = false := by
        simp only [beq_eq_false_iff_ne, ne_eq]
        exact fun hcontra => hne hcontra.symm
      simp [this]

/-- C6: the pending-aggregate registry holds at most one entry per
distinct id (ids pairwise distinct) in the initial state and after every
public broker operation; `registerAggregate` on an id already present is a
no-op that keeps the already-registered instance; hence registering twice
is the same as registering once (so a single dispatch invokes each handler
exactly once per buffered event). -/
theorem C6_registry_invariant (aid names : Nat → String) :
    ((emptyWorld.aggregatesWithEvents.map aid).Nodup) ∧
    (∀ w op, ((w.aggregatesWithEvents.map aid)).Nodup →
      (((applyOp aid names w op).aggregatesWithEvents.map aid)).Nodup) ∧
    (∀ w r found, findRegisteredAggregateById aid w (aid r) = some found →
      registerAggregate aid w r = w) ∧
    (∀ w r, registerAggregate aid (registerAggregate aid w r) r =
      registerAggregate aid w r) := by
  refine ⟨by simp [emptyWorld], ?_, ?_, ?_⟩
  · intro w op hnd
    cases op with
    | regHandler k h => exact hnd
    | clearHandlers => exact hnd
    | clearAggregates => simp [applyOp, clearRegisteredAggregates]
    | regAgg r =>
      show (((registerAggregate aid w r).aggregatesWithEvents.map aid)).Nodup
      unfold registerAggregate
      cases hfind : findRegisteredAggregateById aid w (aid r) with
      | some found => exact hnd
      | none =>
        simp only []
        refine nodup_map_append_single aid _ r hnd ?_
        intro x hx
        have := (jsFind_eq_none_iff _ _).mp hfind x hx
        simpa using this
    | dispatch r =>
      show (((resultWorld (dispatchAggregateEvents aid names w r)).aggregatesWithEvents.map aid)).Nodup
      cases hres : dispatchAggregateEvents aid names w r with
      | error p =>
        rcases p with ⟨w2, t⟩
        rcases dispatchAggregateEvents_error_char aid names w r w2 t hres with
          ⟨hw, _⟩
        subst hw
        exact hnd
      | ok p =>
        rcases p with ⟨w', t⟩
        rcases dispatchAggregateEvents_ok_char aid names w r w' t hres with
          ⟨_, hw, _⟩ | ⟨found, _, _, hw⟩
        · subst hw; exact hnd
        · subst hw
          show (((unregisterAggregate aid (clearDomainEvents w found) found).aggregatesWithEvents.map aid)).Nodup
          rw [okWorld_pending]
          exact nodup_map_eraseFirstB aid _ _ hnd
  · intro w r found hfind
    exact registerAggregate_of_found aid w r found hfind
  · intro w r
    cases hfind : findRegisteredAggregateById aid w (aid r) with
    | some found =>
      rw [registerAggregate_of_found aid w r found hfind,
        registerAggregate_of_found aid w r found hfind]
    | none =>
      have hw2 : registerAggregate aid w r =
          { w with aggregatesWithEvents := w.aggregatesWithEvents ++ [r] } := by
        unfold registerAggregate
        simp only [hfind]
      have hfind2 : findRegisteredAggregateById aid
          { w with aggregatesWithEvents := w.aggregatesWithEvents ++ [r] }
          (aid r) = some r := by
        show jsFind (fun agg => aid agg == aid r)
          (w.aggregatesWithEvents ++ [r]) = some r
        exact jsFind_append_single _ _ r hfind (by simp)
      rw [hw2, registerAggregate_of_found aid _ r r hfind2]

/-- C7: `AbstractEntity.equals` returns `false` for `null`, `undefined`
and any value that is not a kernel entity; on an entity it returns `true`
exactly when the receiver and argument are the same instance or their ids
are equal under the host strict-equality operator; the concrete type plays
no role, so two entities of different concrete kinds sharing an id compare
equal. -/
theorem C7_entity_equals_spec (a : EntityObj) :
    entityEquals a EntityArg.undef = false ∧
    entityEquals a EntityArg.null = false ∧
    (∀ r, entityEquals a (EntityArg.notEntity r) = false) ∧
    (∀ e, entityEquals a (EntityArg.entity e) = true ↔
      (a.ref = e.ref ∨ jsStrictEqId a._id e._id = true)) ∧
    (∀ e, a.ctorKind ≠ e.ctorKind → jsStrictEqId a._id e._id = true →
      entityEquals a (EntityArg.entity e) = true) := by
  refine ⟨rfl, rfl, fun r => rfl, fun e => ?_, fun e hk hid => ?_⟩
  · simp [entityEquals]
  · simp [entityEquals, hid]

/-- C8: ImmutableValue equality is deep, structural and independent of
reference identity: `equals` is `false` on `undefined`/`null` and
otherwise holds exactly when the two bundles are structurally equal —
including two independently constructed empty bundles, bundles containing
`null` attribute values, and deeply nested bundles (all regardless of the
wrappers' object references). -/
theorem C8_valueObject_structural_equality (v : ValueObject) :
    valueObjectEquals v none = false ∧
    (∀ o : ValueObject, valueObjectEquals v (some o) = true ↔
      v.value = o.value) ∧
    (∀ r1 r2 : Nat, valueObjectEquals ⟨r1, JSValue.obj []⟩
      (some ⟨r2, JSValue.obj []⟩) = true) ∧
    (∀ r1 r2 : Nat, ∀ x : JSValue,
      valueObjectEquals ⟨r1, JSValue.obj [("name", JSValue.null), ("age", x)]⟩
        (some ⟨r2, JSValue.obj [("name", JSValue.null), ("age", x)]⟩) =
          true) ∧
    (∀ r1 r2 : Nat, ∀ inner : List (String × JSValue),
      valueObjectEquals ⟨r1, JSValue.obj [("nested", JSValue.obj inner)]⟩
        (some ⟨r2, JSValue.obj [("nested", JSValue.obj inner)]⟩) = true) := by
  refine ⟨rfl, fun o => beqV_iff v.value o.value, fun r1 r2 => rfl,
    fun r1 r2 x => (beqV_iff _ _).mpr rfl,
    fun r1 r2 inner => (beqV_iff _ _).mpr rfl⟩

/-- C9: `dispatchAggregateEvents(a)` leaves the handler registry
unchanged, and every aggregate whose id differs from `a.id` keeps its own
buffer untouched and its registration status unchanged — whether the
dispatch returned normally or a handler threw. -/
theorem C9_dispatch_frame (aid names : Nat → String) (w : World)
    (r r2 : Nat) (hne : aid r2 ≠ aid r) :
    (resultWorld (dispatchAggregateEvents aid names w r)).eventHandlers =
      w.eventHandlers ∧
    (resultWorld (dispatchAggregateEvents aid names w r)).buf r2 =
      w.buf r2 ∧
    (r2 ∈ (resultWorld (dispatchAggregateEvents aid names w r)).aggregatesWithEvents ↔
      r2 ∈ w.aggregatesWithEvents) := by
  cases hres : dispatchAggregateEvents aid names w r with
  | error p =>
    rcases p with ⟨w2, t⟩
    rcases dispatchAggregateEvents_error_char aid names w r w2 t hres with
      ⟨hw, _⟩
    subst hw
    exact ⟨rfl, rfl, Iff.rfl⟩
  | ok p =>
    rcases p with ⟨w', t⟩
    rcases dispatchAggregateEvents_ok_char aid names w r w' t hres with
      ⟨_, hw, _⟩ | ⟨found, hfind, _, hw⟩
    · subst hw; exact ⟨rfl, rfl, Iff.rfl⟩
    · subst hw
      have hids : aid found = aid r := by
        have := (jsFind_eq_some _ _ _ hfind).1
        simpa using this
      have hrne : r2 ≠ found := by
        intro hcontra
        exact hne (by rw [hcontra, hids])
      simp only [resultWorld]
      refine ⟨okWorld_handlers aid w found, ?_, ?_⟩
      · rw [okWorld_buf]
        have : (r2 == found) = false := by
          simpa using hrne
        simp [this]
      · rw [okWorld_pending]
        have hq : (aid r2 == aid found) = false := by
          rw [hids]
          simpa using hne
        constructor
        · exact mem_of_mem_eraseFirstB _ _ r2
        · exact mem_eraseFirstB_of_mem _ _ r2 hq

/-- C10: constructing an entity from a data bundle that contains an `id`
field reads that id, deletes the `id` property from the caller's own
argument object (the bundle is mutated in place — same object reference,
its fields now missing `id`), and stores that same mutated object as the
entity's attribute bundle. -/
theorem C10_constructor_mutates_caller_bundle (genId : JSValue)
    (b : JSBundle) (_hasId : (bundleGet b "id").isSome = true) :
    ((abstractEntityConstructor genId b).2).ref = b.ref ∧
    ((abstractEntityConstructor genId b).2).fields =
      b.fields.filter (fun p => p.1 != "id") ∧
    bundleGet (abstractEntityConstructor genId b).2 "id" = none ∧
    ((abstractEntityConstructor genId b).1)._dataRef =
      ((abstractEntityConstructor genId b).2).ref ∧
    ((abstractEntityConstructor genId b).1)._dataFields =
      ((abstractEntityConstructor genId b).2).fields := by
  refine ⟨rfl, rfl, ?_, rfl, rfl⟩
  show bundleGet (bundleDelete b "id") "id" = none
  unfold bundleGet bundleDelete
  rw [find?_filter_self_ne]
  rfl

/-- Constant constructor-name environment used by the concrete scenarios:
every event constructor is named `K`. -/
def namesK : Nat → String := fun _ => "K"

/-- Concrete aggregate-id environment: object 0 has id `A`, all others
have id `B`. -/
def aidA : Nat → String := fun r => if r = 0 then "A" else "B"

/-- A concrete event record for aggregate `A`, built by the embedded
`AbstractDomainEvent` constructor. -/
def evK : EventRecord := mkAbstractDomainEvent 0 ⟨"A"⟩ 0 none

/-- Broker state with one non-throwing handler under key `K` and
aggregate 0 registered with one buffered event. -/
def wC1 : World :=
  { eventHandlers := [("K", [⟨1, false⟩])], aggregatesWithEvents := [0],
    buf := fun r => if r = 0 then [evK] else [] }

/-- The state after successfully dispatching aggregate 0 from `wC1`. -/
def wC1after : World := resultWorld (dispatchAggregateEvents aidA namesK wC1 0)

/-- C1 witness: on the concrete scenario `wC1`, after a successful
dispatch of aggregate 0 no aggregate with its id remains registered and an
immediate second dispatch is a no-op invoking no handlers. -/
theorem C1_witness :
    findRegisteredAggregateById aidA wC1after (aidA 0) = none ∧
    dispatchAggregateEvents aidA namesK wC1after 0 =
      Except.ok (wC1after, []) := by
  have h := C1_successful_dispatch aidA namesK wC1 0 wC1after [(1, evK)]
    (by decide) rfl
  exact ⟨h.2.1, h.2.2.1⟩

/-- Broker state with one synchronously throwing handler under key `K`
and aggregate 0 registered with one buffered event. -/
def wC2 : World :=
  { eventHandlers := [("K", [⟨9, true⟩])], aggregatesWithEvents := [0],
    buf := fun r => if r = 0 then [evK] else [] }

/-- C2 witness: on the concrete scenario `wC2`, dispatching lets the
handler's exception escape after the single invocation and leaves the
state unchanged. -/
theorem C2_witness :
    dispatchAggregateEvents aidA namesK wC2 0 =
      Except.error (wC2, [(9, evK)]) ∧
    wC2 = wC2 :=
  ⟨rfl, (C2_throwing_handler aidA namesK wC2 0 wC2 [(9, evK)] rfl).1⟩

/-- State built by registering handlers 1, 2, 3 for kind `K`, in that
order. -/
def wH3 : World :=
  registerEventHandler
    (registerEventHandler (registerEventHandler emptyWorld "K" ⟨1, false⟩)
      "K" ⟨2, false⟩) "K" ⟨3, false⟩

/-- State built by registering the same handler 7 for kind `K` twice. -/
def wHdup : World :=
  registerEventHandler (registerEventHandler emptyWorld "K" ⟨7, false⟩)
    "K" ⟨7, false⟩

/-- C3 witness: registering `h1, h2, h3` for kind `K` and dispatching one
`K` event invokes them in registration order; a handler registered twice
is invoked twice. -/
theorem C3_witness :
    dispatchEventList wH3.eventHandlers namesK [evK] =
      .ok [(1, evK), (2, evK), (3, evK)] ∧
    dispatchEventList wHdup.eventHandlers namesK [evK] =
      .ok [(7, evK), (7, evK)] := by
  have h1 := (C3_ordered_fanout namesK).1 wH3.eventHandlers [evK] (by decide)
  have h2 := (C3_ordered_fanout namesK).1 wHdup.eventHandlers [evK] (by decide)
  exact ⟨h1, h2⟩

/-- C4 witness: the amended dispatch-time-kind theorem applied to the
renamed environment routes the old record to the `K2` handler. -/
theorem C4_witness :
    dispatchEventList hmC4 namesAfter [eC4] = .ok [(7, eC4)] :=
  C4_dispatch_time_kind hmC4 namesAfter 0 ⟨"agg-1"⟩ 0 none (by decide)

/-- Concrete id environment where every aggregate object carries the same
id `X`: objects 0 and 1 are distinct references with equal ids. -/
def aidX : Nat → String := fun _ => "X"

/-- A concrete event record for aggregate `X`. -/
def evX : EventRecord := mkAbstractDomainEvent 0 ⟨"X"⟩ 0 none

/-- Broker state where object 0 is the registered instance (buffer of one
event) and object 1 is an unregistered duplicate carrying two buffered
events of its own. -/
def wC5 : World :=
  { eventHandlers := [("K", [⟨1, false⟩])], aggregatesWithEvents := [0],
    buf := fun r => if r = 0 then [evX] else [evX, evX] }

/-- The state after dispatching with the duplicate object 1 as argument. -/
def wC5after : World := resultWorld (dispatchAggregateEvents aidX namesK wC5 1)

/-- C5 witness: dispatching with argument object 1 (same id as the
registered object 0) clears the registered instance's buffer and leaves
the argument's own buffer untouched. -/
theorem C5_witness :
    wC5after.buf 0 = [] ∧ wC5after.buf 1 = wC5.buf 1 := by
  have h := C5_registered_instance_dispatched aidX namesK wC5 1 0 wC5after
    [(1, evX)] (by decide) rfl rfl
  exact ⟨h.2.1, h.2.2.1⟩

/-- C6 witness: the at-most-one-entry-per-id invariant is preserved by a
concrete registration, and double registration equals single
registration on a concrete state. -/
theorem C6_witness :
    (((applyOp aidA namesK wC1 (BrokerOp.regAgg 5)).aggregatesWithEvents.map aidA)).Nodup ∧
    registerAggregate aidA (registerAggregate aidA emptyWorld 0) 0 =
      registerAggregate aidA emptyWorld 0 :=
  ⟨(C6_registry_invariant aidA namesK).2.1 wC1 (BrokerOp.regAgg 5) (by decide),
   (C6_registry_invariant aidA namesK).2.2.2 emptyWorld 0⟩

/-- A `UserEntity`-kind entity with string id `id-1`. -/
def entA : EntityObj := ⟨0, "UserEntity", JSId.str "id-1"⟩

/-- A `ProductEntity`-kind entity sharing the id `id-1`. -/
def entB : EntityObj := ⟨1, "ProductEntity", JSId.str "id-1"⟩

/-- C7 witness: two entities of different concrete kinds sharing an id
compare equal, and comparison against `null` is `false`. -/
theorem C7_witness :
    entityEquals entA (EntityArg.entity entB) = true ∧
    entityEquals entA EntityArg.null = false :=
  ⟨(C7_entity_equals_spec entA).2.2.2.2 entB (by decide) (by decide),
   (C7_entity_equals_spec entA).2.1⟩

/-- An ImmutableValue wrapping an empty bundle. -/
def voA : ValueObject := ⟨0, JSValue.obj []⟩

/-- An independently constructed ImmutableValue wrapping another empty
bundle. -/
def voB : ValueObject := ⟨1, JSValue.obj []⟩

/-- C8 witness: two independently constructed empty bundles compare
equal; comparison against `undefined`/`null` is `false`. -/
theorem C8_witness :
    valueObjectEquals voA (some voB) = true ∧
    valueObjectEquals voA none = false :=
  ⟨(C8_valueObject_structural_equality voA).2.2.1 0 1,
   (C8_valueObject_structural_equality voA).1⟩

/-- C9 witness: dispatching aggregate 0 leaves unrelated object 5 (id
`B`) with its buffer and registration status unchanged. -/
theorem C9_witness :
    (resultWorld (dispatchAggregateEvents aidA namesK wC1 0)).buf 5 =
      wC1.buf 5 ∧
    (5 ∈ (resultWorld (dispatchAggregateEvents aidA namesK wC1 0)).aggregatesWithEvents ↔
      5 ∈ wC1.aggregatesWithEvents) := by
  have h := C9_dispatch_frame aidA namesK wC1 0 5 (by decide)
  exact ⟨h.2.1, h.2.2⟩

/-- A caller bundle (object reference 3) containing an `id` field. -/
def bC10 : JSBundle :=
  ⟨3, [("id", JSValue.str "id-7"), ("name", JSValue.str "John")]⟩

/-- C10 witness: constructing from `bC10` leaves the caller's object (same
reference 3) without its `id` property. -/
theorem C10_witness :
    ((abstractEntityConstructor (JSValue.str "gen") bC10).2).ref = 3 ∧
    ((abstractEntityConstructor (JSValue.str "gen") bC10).2).fields =
      [("name", JSValue.str "John")] ∧
    bundleGet (abstractEntityConstructor (JSValue.str "gen") bC10).2 "id" =
      none := by
  have h := C10_constructor_mutates_caller_bundle (JSValue.str "gen") bC10
    (by decide)
  refine ⟨h.1, ?_, h.2.2.1⟩
  rw [h.2.1]
  decide
